import Mathlib

/-!
Verification of the note-management client's persistence core
(`services/api.js` and `utils.js`) in its local-fallback mode
(`isBackendConfigured = false`, i.e. no remote base URL configured).

Modelling conventions for the shallow embedding:

* JavaScript values reaching the data layer are modelled by `JSVal`.
  A string that the host `Date` constructor parses to the instant `t`
  (in particular every ISO-8601 date-time string) is represented by the
  constructor `JSVal.time t`, carrying its denotation in milliseconds;
  `JSVal.str s` represents strings that are *not* recognized date formats
  (`new Date(s)` is an Invalid Date).  This is faithful because the code
  never inspects the characters of a stored string: it only tests
  truthiness, compares with `===` (and `===` is only ever applied to `id`
  fields, which are never date strings in any reachable state), and feeds
  `updatedAt` to `new Date(...).toISOString()`, whose behaviour is fully
  determined by whether the string parses and, if so, by its instant.
  `Date.prototype.toISOString` output for instant `t` is likewise
  represented by `JSVal.time t`; comparing two such timestamps "later
  than" is integer comparison of the instants.

* `localStorage` is modelled by the contents of the single key
  `notes_app_items_v1`: absent (`none`), or a string that `JSON.parse`s
  to an array of note objects (`some (Stored.good ns)`, using that
  `JSON.parse ∘ JSON.stringify` is the identity on such arrays), or a
  string on which `JSON.parse` throws (`some Stored.corrupt`).  These are
  exactly the states reachable under the code plus external corruption,
  since the only writer, `lsWriteAll`, stores a serialized array.

* `new Date()` (the current clock reading) is passed to each operation as
  an explicit `now : Int` argument, and the random token drawn by
  `Math.random().toString(36).slice(2, 10)` inside `createNote` is passed
  as an explicit `tok : String` argument.

* A thrown JavaScript `Error` is modelled by `Except.error` carrying the
  error message.
-/

namespace NotesApp

/-- A JavaScript value as it can occur in the fields of a note object.
`time t` stands for a date-parseable string denoting instant `t` (ms since
epoch); `str s` stands for a non-date string.  Because the host only
parses a string successfully when its instant is a valid ECMA-262 time
value, every `time t` carries `|t| ≤ 8.64e15`; a string denoting an
out-of-range instant does not parse and is therefore a `str`. -/
inductive JSVal where
  | undef
  | null
  | bool (b : Bool)
  | num (n : Int)
  | str (s : String)
  | time (t : Int)
deriving DecidableEq

/-- JavaScript truthiness of a `JSVal` (`if (v)`, `v ? _ : _`, `v || _`).
A date-parseable string is nonempty, hence truthy. -/
def truthy : JSVal → Bool
  | .undef => false
  | .null => false
  | .bool b => b
  | .num n => n != 0
  | .str s => s != ""
  | .time _ => true

/-- JavaScript `a || b`. -/
def jsOr (a b : JSVal) : JSVal := if truthy a then a else b

/-- JavaScript strict equality `===` on the modelled values.  (In the
source, `===`/`!==` are applied only to `id` fields; `time` vs `str` is
`false` because ids are never date strings in any reachable state.) -/
def jsEq : JSVal → JSVal → Bool
  | .undef, .undef => true
  | .null, .null => true
  | .bool a, .bool b => a == b
  | .num a, .num b => a == b
  | .str a, .str b => a == b
  | .time a, .time b => a == b
  | _, _ => false

/-- `new Date(v)`: `some t` when the resulting `Date` is valid with instant
`t`, `none` when it is an Invalid Date (so that `.toISOString()` throws a
`RangeError`).  A number is its own instant when it is a valid ECMA-262
time value (absolute value at most 8.64e15 ms) and gives an Invalid Date
beyond that range; `true`/`false` coerce to 1/0, `null` to 0, `undefined`
and non-date strings give Invalid Date.  (A `time t` is in range by the
representation invariant on `JSVal.time`.) -/
def jsToDate : JSVal → Option Int
  | .undef => none
  | .null => some 0
  | .bool b => some (if b then 1 else 0)
  | .num n => if n.natAbs ≤ 8640000000000000 then some n else none
  | .str _ => none
  | .time t => some t

/-- A note object as stored or passed around: the four fields the data
layer reads.  An absent field reads as `undefined` (`JSVal.undef`). -/
structure JNote where
  id : JSVal
  title : JSVal
  content : JSVal
  updatedAt : JSVal
deriving DecidableEq

/-- The value stored under the localStorage key `notes_app_items_v1`:
either a string that parses as an array of notes, or a string on which
`JSON.parse` throws. -/
inductive Stored where
  | good (notes : List JNote)
  | corrupt
deriving DecidableEq

/-- The state of the localStorage cell for the notes key (`none` = key
absent). -/
abbrev LocalStorage := Option Stored

/-- `lsReadAll`: read and `JSON.parse` the stored array; absent key gives
`[]`; a parse failure is caught, the key is removed
(`localStorage.removeItem(LS_KEY)`) and `[]` is returned.  Returns the
collection together with the (possibly self-healed) storage state. -/
def lsReadAll : LocalStorage → List JNote × LocalStorage
  | none => ([], none)
  | some (.good ns) => (ns, some (.good ns))
  | some .corrupt => ([], none)

/-- `lsWriteAll(notes)`: overwrite the key with the serialized array. -/
def lsWriteAll (ns : List JNote) (_ : LocalStorage) : LocalStorage :=
  some (.good ns)

/-- `normalize(note)`: canonicalize an API note object.  `title` and
`content` are defaulted to `''` when falsy; `updatedAt`, when truthy, is
passed through `new Date(...).toISOString()` — which throws a `RangeError`
on an Invalid Date — and otherwise replaced by the current time.  `now` is
the clock reading used by `new Date()`. -/
def normalize (now : Int) (note : JNote) : Except String JNote :=
  match (if truthy note.updatedAt then
            match jsToDate note.updatedAt with
            | some t => Except.ok (JSVal.time t)
            | none => Except.error "RangeError: Invalid time value"
          else Except.ok (JSVal.time now) : Except String JSVal) with
  | .error e => .error e
  | .ok u =>
      .ok ⟨note.id, jsOr note.title (.str ""), jsOr note.content (.str ""), u⟩

/-- `fetchNotes()` in local-fallback mode: `return lsReadAll();` — the
stored objects are returned as-is (no call to `normalize`). -/
def fetchNotes (s : LocalStorage) : List JNote × LocalStorage :=
  lsReadAll s

/-- `fetchNote(id)` in local-fallback mode:
`all.find(n => n.id === id) || null`; `none` models `null`. -/
def fetchNote (id : JSVal) (s : LocalStorage) : Option JNote × LocalStorage :=
  let r := lsReadAll s
  (r.fst.find? (fun n => jsEq n.id id), r.snd)

/-- `createNote(note)` in local-fallback mode: choose the id
(`note.id || 'n_' + <random token>`), default `title` to `'Untitled'` and
`content` to `''` when falsy, stamp `updatedAt` with the current time,
`unshift` onto the collection, persist, return the new note.  `tok` is the
random token, `now` the clock reading. -/
def createNote (tok : String) (now : Int) (note : JNote) (s : LocalStorage) :
    JNote × LocalStorage :=
  let r := lsReadAll s
  let newNote : JNote :=
    ⟨jsOr note.id (.str ("n_" ++ tok)),
     jsOr note.title (.str "Untitled"),
     jsOr note.content (.str ""),
     .time now⟩
  (newNote, lsWriteAll (newNote :: r.fst) r.snd)

/-- A partial update `{title?, content?}` as documented on `updateNote`
(`none` = field absent from the patch object). -/
structure Patch where
  title : Option JSVal
  content : Option JSVal
deriving DecidableEq

/-- The merge `{ ...all[idx], ...patch, updatedAt: now }`: patch fields
(when present) override, `updatedAt` is re-stamped, everything else is
kept. -/
def applyPatch (n : JNote) (p : Patch) (now : Int) : JNote :=
  ⟨n.id, p.title.getD n.title, p.content.getD n.content, .time now⟩

/-- Replace the first note whose `id` strictly equals `id` by its patched
version, in place: this is `all.findIndex(n => n.id === id)` followed by
`all[idx] = updated` (`none` when `findIndex` gives `-1`).  Returns the
merged note and the updated array. -/
def updateIn (p : Patch) (now : Int) (id : JSVal) :
    List JNote → Option (JNote × List JNote)
  | [] => none
  | n :: rest =>
      if jsEq n.id id then
        let u := applyPatch n p now
        some (u, u :: rest)
      else
        match updateIn p now id rest with
        | none => none
        | some (u, rest') => some (u, n :: rest')

/-- `updateNote(id, patch)` in local-fallback mode: locate by id, throw
`Error('Note not found')` when absent, otherwise merge, persist, return
the merged note. -/
def updateNote (id : JSVal) (p : Patch) (now : Int) (s : LocalStorage) :
    Except String JNote × LocalStorage :=
  let r := lsReadAll s
  match updateIn p now id r.fst with
  | none => (.error "Note not found", r.snd)
  | some (u, all') => (.ok u, lsWriteAll all' r.snd)

/-- `deleteNote(id)` in local-fallback mode:
`all.filter(n => n.id !== id)`, persist, `return true`. -/
def deleteNote (id : JSVal) (s : LocalStorage) : Bool × LocalStorage :=
  let r := lsReadAll s
  (true, lsWriteAll (r.fst.filter (fun n => !(jsEq n.id id))) r.snd)

/-- The id under which `createNote` stores a note built from input `note`
and random token `tok`: `note.id || 'n_' + tok`. -/
def effId (note : JNote) (tok : String) : JSVal :=
  jsOr note.id (.str ("n_" ++ tok))

/-- Run a sequence of `createNote` calls (each with its input object,
random token and clock reading) against a storage state. -/
def runCreates (calls : List (JNote × String × Int)) (s : LocalStorage) :
    LocalStorage :=
  calls.foldl (fun st c => (createNote c.2.1 c.2.2 c.1 st).snd) s

/-- `v` is a JavaScript string (either a non-date string or a
date-parseable one). -/
def isStringVal : JSVal → Bool
  | .str _ => true
  | .time _ => true
  | _ => false

/-- `v` is a valid ISO-8601 date-time string as emitted by
`Date.prototype.toISOString` (represented by its instant). -/
def isISO : JSVal → Bool
  | .time _ => true
  | _ => false

/-- One invocation of the wrapper returned by `debounce(fn, wait)` (or of
`fn` itself): the instant it happens and the arguments passed. -/
structure SaveCall (α : Type) where
  time : Int
  args : α
deriving DecidableEq

/-- Trace semantics of `debounce(fn, wait)` from `utils.js`: given the
wrapper's invocations in increasing time order, the list of resulting
`fn` invocations.  The wrapper keeps one timer handle `t`; each call does
`clearTimeout(t)` and re-arms `t` to run `fn` with its own arguments
`wait` ms later.  Hence the timer armed by a call fires exactly when the
next wrapper call (if any) happens strictly after `time + wait`
(otherwise `clearTimeout` cancels it first), and the last call's timer
always fires, at `time + wait` with that call's arguments. -/
def debounceFires {α : Type} (wait : Int) : List (SaveCall α) → List (SaveCall α)
  | [] => []
  | [c] => [⟨c.time + wait, c.args⟩]
  | c :: c2 :: rest =>
      if c2.time ≤ c.time + wait then debounceFires wait (c2 :: rest)
      else ⟨c.time + wait, c.args⟩ :: debounceFires wait (c2 :: rest)

/-- `===` is reflexive on the modelled values. -/
theorem jsEq_refl (v : JSVal) : jsEq v v = true := by
  cases v <;> simp [jsEq]

/-- On the modelled values, `===` coincides with structural equality. -/
theorem jsEq_eq (a b : JSVal) : jsEq a b = true ↔ a = b := by
  cases a <;> cases b <;> simp [jsEq]

/-- `!==` coincides with structural inequality. -/
theorem jsEq_false_iff (a b : JSVal) : jsEq a b = false ↔ a ≠ b := by
  simp [← jsEq_eq]

/-- A truthy value is not `undefined`. -/
theorem truthy_ne_undef (v : JSVal) (h : truthy v = true) : v ≠ .undef := by
  intro hv; rw [hv] at h; simp [truthy] at h

/-- `a || <string literal>` is never `undefined`. -/
theorem jsOr_ne_undef (a : JSVal) (x : String) : jsOr a (.str x) ≠ .undef := by
  unfold jsOr
  by_cases h : truthy a = true
  · rw [if_pos h]; exact truthy_ne_undef a h
  · rw [if_neg h]; intro hv; cases hv

/-- Re-reading storage after a read (which may have self-healed a corrupt
cell) gives the same result. -/
theorem lsReadAll_idem (s : LocalStorage) :
    lsReadAll (lsReadAll s).snd = lsReadAll s := by
  cases s with
  | none => rfl
  | some st => cases st <;> rfl

/-- C8 — **Idempotent delete.**  In local fallback mode `remove(id)`
returns `true` for every id (present or absent); after the first call the
collection contains no note with that id, and a second call also returns
`true` and leaves the collection unchanged. -/
theorem claim_C8_idempotent_delete (s : LocalStorage) (id : JSVal) :
    (deleteNote id s).fst = true ∧
    (∀ n ∈ (lsReadAll (deleteNote id s).snd).fst, jsEq n.id id = false) ∧
    (deleteNote id (deleteNote id s).snd).fst = true ∧
    (lsReadAll (deleteNote id (deleteNote id s).snd).snd).fst
      = (lsReadAll (deleteNote id s).snd).fst := by
  refine ⟨rfl, ?_, rfl, ?_⟩
  · intro n hn
    simp only [deleteNote, lsWriteAll, lsReadAll, List.mem_filter] at hn
    simpa using hn.2
  · simp only [deleteNote, lsWriteAll, lsReadAll, List.filter_filter]
    simp

/-- C9 — **Create defaults, prepend, persist, return.**  In local fallback
mode, `create({})` (title/content omitted) yields a note with title
`"Untitled"`, content `""`, id `"n_" + token` and `updatedAt` the current
time; the note is prepended to the collection, the collection is
persisted, the new note is the value returned, and it is the first element
of a subsequent `listAll`. -/
theorem claim_C9_create_defaults_prepend (s : LocalStorage) (tok : String)
    (now : Int) :
    (createNote tok now ⟨.undef, .undef, .undef, .undef⟩ s).fst
      = ⟨.str ("n_" ++ tok), .str "Untitled", .str "", .time now⟩ ∧
    (createNote tok now ⟨.undef, .undef, .undef, .undef⟩ s).snd
      = some (.good
          ((createNote tok now ⟨.undef, .undef, .undef, .undef⟩ s).fst
            :: (lsReadAll s).fst)) ∧
    (fetchNotes (createNote tok now ⟨.undef, .undef, .undef, .undef⟩ s).snd).fst
      = (createNote tok now ⟨.undef, .undef, .undef, .undef⟩ s).fst
          :: (lsReadAll s).fst ∧
    (fetchNotes (createNote tok now ⟨.undef, .undef, .undef, .undef⟩ s).snd).fst.head?
      = some (createNote tok now ⟨.undef, .undef, .undef, .undef⟩ s).fst := by
  cases s with
  | none =>
      refine ⟨rfl, rfl, rfl, rfl⟩
  | some st =>
      cases st with
      | good ns => refine ⟨rfl, rfl, rfl, rfl⟩
      | corrupt => refine ⟨rfl, rfl, rfl, rfl⟩

/-- C10 — **Local reads bypass the Normalizer.**  In local fallback mode
`listAll` returns the stored array as-is and `getOne` returns the found
stored element as-is (`normalize` is never applied on the local path);
in particular a stored element lacking `title`, `content` and `updatedAt`
is returned unchanged even though it does not have the canonical shape and
`normalize` would have altered it. -/
theorem claim_C10_local_reads_bypass_normalizer :
    (∀ ns : List JNote, (fetchNotes (some (.good ns))).fst = ns) ∧
    (∀ (ns : List JNote) (id : JSVal),
      (fetchNote id (some (.good ns))).fst
        = ns.find? (fun n => jsEq n.id id)) ∧
    (fetchNotes (some (.good [⟨.str "x", .undef, .undef, .undef⟩]))).fst
      = [⟨.str "x", .undef, .undef, .undef⟩] ∧
    isStringVal (JNote.title ⟨.str "x", .undef, .undef, .undef⟩) = false ∧
    isISO (JNote.updatedAt ⟨.str "x", .undef, .undef, .undef⟩) = false ∧
    normalize 0 ⟨.str "x", .undef, .undef, .undef⟩
      ≠ .ok ⟨.str "x", .undef, .undef, .undef⟩ := by
  refine ⟨fun ns => rfl, fun ns id => rfl, rfl, rfl, rfl, ?_⟩
  intro h
  simp [normalize, truthy, jsOr] at h

/-- After a `createNote`, fetching the returned note's id finds exactly
the newly created note (it was `unshift`ed to the front, so `find` hits it
first even if another note shares the id). -/
theorem create_then_fetch (tok : String) (now : Int) (note : JNote)
    (s : LocalStorage) :
    (fetchNote (createNote tok now note s).fst.id
        (createNote tok now note s).snd).fst
      = some (createNote tok now note s).fst := by
  simp only [createNote, fetchNote, lsWriteAll, lsReadAll]
  rw [List.find?_cons_of_pos]
  exact jsEq_refl _

/-- C1 (counterexample) — created with `title: ""` (an instance of
`create({title, content})`), the note read back by `getOne` has title
`"Untitled"`, not the empty title that was passed. -/
theorem claim_C1_counterexample :
    (fetchNote (createNote "k" 0 ⟨.undef, .str "", .str "y", .undef⟩ none).fst.id
        (createNote "k" 0 ⟨.undef, .str "", .str "y", .undef⟩ none).snd).fst
      = some ⟨.str "n_k", .str "Untitled", .str "y", .time 0⟩ ∧
    JSVal.str "Untitled" ≠ JSVal.str "" := by
  refine ⟨rfl, by simp⟩

/-- C1 (amended) — **Round-trip.**  For a note created via
`create({title, content})` with a *truthy* (non-empty) string title and
any string content, a subsequent `getOne` with the returned id yields that
very note, with the same title and content and a defined id and
`updatedAt`.  (An empty/missing title is stored as `"Untitled"`; an empty
content round-trips unchanged, since `'' || ''` stores the passed `''`.) -/
theorem claim_C1_roundtrip_amended (s : LocalStorage) (tok : String)
    (now : Int) (inpId : JSVal) (t c : String) (ht : t ≠ "") :
    (fetchNote (createNote tok now ⟨inpId, .str t, .str c, .undef⟩ s).fst.id
        (createNote tok now ⟨inpId, .str t, .str c, .undef⟩ s).snd).fst
      = some (createNote tok now ⟨inpId, .str t, .str c, .undef⟩ s).fst ∧
    (createNote tok now ⟨inpId, .str t, .str c, .undef⟩ s).fst.title = .str t ∧
    (createNote tok now ⟨inpId, .str t, .str c, .undef⟩ s).fst.content = .str c ∧
    (createNote tok now ⟨inpId, .str t, .str c, .undef⟩ s).fst.id ≠ .undef ∧
    (createNote tok now ⟨inpId, .str t, .str c, .undef⟩ s).fst.updatedAt
      ≠ .undef := by
  refine ⟨create_then_fetch tok now _ s, ?_, ?_, ?_, ?_⟩
  · simp [createNote, jsOr, truthy, ht]
  · by_cases hc : c = ""
    · subst hc; rfl
    · simp [createNote, jsOr, truthy, hc]
  · exact jsOr_ne_undef inpId ("n_" ++ tok)
  · intro hv; cases hv

/-- Witness for the amended C1 at a concrete input. -/
theorem claim_C1_roundtrip_amended_witness :
    (fetchNote (createNote "k" 0 ⟨.undef, .str "a", .str "b", .undef⟩ none).fst.id
        (createNote "k" 0 ⟨.undef, .str "a", .str "b", .undef⟩ none).snd).fst
      = some (createNote "k" 0 ⟨.undef, .str "a", .str "b", .undef⟩ none).fst ∧
    (createNote "k" 0 ⟨.undef, .str "a", .str "b", .undef⟩ none).fst.title
      = .str "a" ∧
    (createNote "k" 0 ⟨.undef, .str "a", .str "b", .undef⟩ none).fst.content
      = .str "b" ∧
    (createNote "k" 0 ⟨.undef, .str "a", .str "b", .undef⟩ none).fst.id
      ≠ .undef ∧
    (createNote "k" 0 ⟨.undef, .str "a", .str "b", .undef⟩ none).fst.updatedAt
      ≠ .undef :=
  claim_C1_roundtrip_amended none "k" 0 (JSVal.undef) "a" "b" (by decide)

/-- When no element of the list has the sought id, `findIndex` gives `-1`
(`updateIn` gives `none`). -/
theorem updateIn_eq_none (p : Patch) (now : Int) (id : JSVal)
    (l : List JNote) (h : ∀ n ∈ l, jsEq n.id id = false) :
    updateIn p now id l = none := by
  induction l with
  | nil => rfl
  | cons n rest ih =>
      have hn : jsEq n.id id = false := h n (by simp)
      simp [updateIn, hn, ih (fun m hm => h m (by simp [hm]))]

/-- `findIndex` + in-place assignment on a list whose first match is
`old`: the merged note replaces `old` and everything else is kept. -/
theorem updateIn_found (p : Patch) (now : Int) (pre post : List JNote)
    (old : JNote) (hpre : ∀ m ∈ pre, jsEq m.id old.id = false) :
    updateIn p now old.id (pre ++ old :: post)
      = some (applyPatch old p now, pre ++ applyPatch old p now :: post) := by
  induction pre with
  | nil => simp [updateIn, jsEq_refl]
  | cons m rest ih =>
      have hm : jsEq m.id old.id = false := hpre m (by simp)
      simp [updateIn, hm, ih (fun x hx => hpre x (by simp [hx]))]

/-- C6 (counterexample) — an update performed at the same clock reading as
the note's previous stamp (two writes within the same millisecond, so
`new Date().toISOString()` yields the same string): the merged note's
`updatedAt` equals the previous `updatedAt` instead of being strictly
later. -/
theorem claim_C6_counterexample :
    updateNote (.str "i") ⟨some (.str "X"), none⟩ 0
        (some (.good [⟨.str "i", .str "T", .str "Y", .time 0⟩]))
      = (.ok ⟨.str "i", .str "X", .str "Y", .time 0⟩,
         some (.good [⟨.str "i", .str "X", .str "Y", .time 0⟩])) ∧
    JNote.updatedAt ⟨.str "i", .str "T", .str "Y", .time 0⟩ = .time 0 ∧
    ¬ ((0 : Int) < 0) := by
  refine ⟨rfl, rfl, by decide⟩

/-- C6 (amended) — **Update merge.**  For a note present in the
local-fallback collection (`old`, the first note with its id),
`update(id, patch)` stores and returns the merged note: patched fields
take the patch values, the id and the fields not named in the patch are
unchanged, and `updatedAt` is re-stamped with the current time — strictly
later than the note's previous `updatedAt` whenever the clock has
advanced past it (`t0 < now`); an update within the same millisecond as
the previous stamp yields an equal `updatedAt`, not a strictly later
one. -/
theorem claim_C6_update_merge (pre post : List JNote) (old : JNote)
    (p : Patch) (now t0 : Int)
    (hpre : ∀ m ∈ pre, jsEq m.id old.id = false)
    (hup : old.updatedAt = .time t0) (hlt : t0 < now) :
    updateNote old.id p now (some (.good (pre ++ old :: post)))
      = (.ok (applyPatch old p now),
         some (.good (pre ++ applyPatch old p now :: post))) ∧
    (applyPatch old p now).id = old.id ∧
    (∀ v, p.title = some v → (applyPatch old p now).title = v) ∧
    (p.title = none → (applyPatch old p now).title = old.title) ∧
    (∀ v, p.content = some v → (applyPatch old p now).content = v) ∧
    (p.content = none → (applyPatch old p now).content = old.content) ∧
    (applyPatch old p now).updatedAt = .time now ∧
    old.updatedAt = .time t0 ∧ t0 < now := by
  refine ⟨?_, rfl, ?_, ?_, ?_, ?_, rfl, hup, hlt⟩
  · simp [updateNote, lsReadAll, updateIn_found p now pre post old hpre,
      lsWriteAll]
  · intro v hv; simp [applyPatch, hv]
  · intro hv; simp [applyPatch, hv]
  · intro v hv; simp [applyPatch, hv]
  · intro hv; simp [applyPatch, hv]

/-- Witness for C6 at a concrete input: patching only the title of
`{id: "i", title: "T", content: "Y", updatedAt: time 0}` at time 1. -/
theorem claim_C6_update_merge_witness :
    updateNote (JNote.id ⟨.str "i", .str "T", .str "Y", .time 0⟩)
        ⟨some (.str "X"), none⟩ 1
        (some (.good ([] ++ ⟨.str "i", .str "T", .str "Y", .time 0⟩ :: [])))
      = (.ok (applyPatch ⟨.str "i", .str "T", .str "Y", .time 0⟩
              ⟨some (.str "X"), none⟩ 1),
         some (.good ([] ++ applyPatch ⟨.str "i", .str "T", .str "Y", .time 0⟩
              ⟨some (.str "X"), none⟩ 1 :: []))) ∧
    (applyPatch ⟨.str "i", .str "T", .str "Y", .time 0⟩
        ⟨some (.str "X"), none⟩ 1).id
      = JNote.id ⟨.str "i", .str "T", .str "Y", .time 0⟩ ∧
    (∀ v, (⟨some (.str "X"), none⟩ : Patch).title = some v →
      (applyPatch ⟨.str "i", .str "T", .str "Y", .time 0⟩
          ⟨some (.str "X"), none⟩ 1).title = v) ∧
    ((⟨some (.str "X"), none⟩ : Patch).title = none →
      (applyPatch ⟨.str "i", .str "T", .str "Y", .time 0⟩
          ⟨some (.str "X"), none⟩ 1).title
        = JNote.title ⟨.str "i", .str "T", .str "Y", .time 0⟩) ∧
    (∀ v, (⟨some (.str "X"), none⟩ : Patch).content = some v →
      (applyPatch ⟨.str "i", .str "T", .str "Y", .time 0⟩
          ⟨some (.str "X"), none⟩ 1).content = v) ∧
    ((⟨some (.str "X"), none⟩ : Patch).content = none →
      (applyPatch ⟨.str "i", .str "T", .str "Y", .time 0⟩
          ⟨some (.str "X"), none⟩ 1).content
        = JNote.content ⟨.str "i", .str "T", .str "Y", .time 0⟩) ∧
    (applyPatch ⟨.str "i", .str "T", .str "Y", .time 0⟩
        ⟨some (.str "X"), none⟩ 1).updatedAt = .time 1 ∧
    JNote.updatedAt ⟨.str "i", .str "T", .str "Y", .time 0⟩ = .time 0 ∧
    (0 : Int) < 1 :=
  claim_C6_update_merge [] [] ⟨.str "i", .str "T", .str "Y", .time 0⟩
    ⟨some (.str "X"), none⟩ 1 0 (by simp) rfl (by decide)

/-- C7 — **Update of an unknown id.**  In local fallback mode,
`update(id, patch)` for an id absent from the collection fails with the
`Note not found` error; the persisted collection is unchanged and, for a
well-formed cell (key absent or holding a valid array), the storage cell
itself is untouched — no write occurs on the error path. -/
theorem claim_C7_update_notfound (s : LocalStorage) (id : JSVal) (p : Patch)
    (now : Int) (h : ∀ n ∈ (lsReadAll s).fst, jsEq n.id id = false) :
    (updateNote id p now s).fst = .error "Note not found" ∧
    (lsReadAll (updateNote id p now s).snd).fst = (lsReadAll s).fst ∧
    (∀ ns, s = some (.good ns) → (updateNote id p now s).snd = s) ∧
    (s = none → (updateNote id p now s).snd = s) := by
  have hnone : updateIn p now id (lsReadAll s).fst = none :=
    updateIn_eq_none p now id _ h
  refine ⟨?_, ?_, ?_, ?_⟩
  · simp [updateNote, hnone]
  · simp [updateNote, hnone, lsReadAll_idem]
  · intro ns hs; subst hs; simp [updateNote, lsReadAll] at hnone ⊢
    simp [hnone]
  · intro hs; subst hs; rfl

/-- Witness for C7 at a concrete input: updating id `"b"` in a store that
only holds a note with id `"a"`. -/
theorem claim_C7_update_notfound_witness :
    (updateNote (.str "b") ⟨none, none⟩ 3
        (some (.good [⟨.str "a", .undef, .undef, .time 0⟩]))).fst
      = .error "Note not found" ∧
    (lsReadAll (updateNote (.str "b") ⟨none, none⟩ 3
        (some (.good [⟨.str "a", .undef, .undef, .time 0⟩]))).snd).fst
      = (lsReadAll (some (.good [⟨.str "a", .undef, .undef, .time 0⟩]))).fst ∧
    (∀ ns, (some (.good [⟨.str "a", .undef, .undef, .time 0⟩]) : LocalStorage)
        = some (.good ns) →
      (updateNote (.str "b") ⟨none, none⟩ 3
          (some (.good [⟨.str "a", .undef, .undef, .time 0⟩]))).snd
        = some (.good [⟨.str "a", .undef, .undef, .time 0⟩])) ∧
    ((some (.good [⟨.str "a", .undef, .undef, .time 0⟩]) : LocalStorage) = none →
      (updateNote (.str "b") ⟨none, none⟩ 3
          (some (.good [⟨.str "a", .undef, .undef, .time 0⟩]))).snd
        = some (.good [⟨.str "a", .undef, .undef, .time 0⟩])) :=
  claim_C7_update_notfound (some (.good [⟨.str "a", .undef, .undef, .time 0⟩]))
    (.str "b") ⟨none, none⟩ 3 (by decide)

/-- The ids in the collection after a sequence of `createNote` calls are
the effective ids of the calls, newest first, in front of the initial
ids: each create only prepends a note carrying its effective id. -/
theorem runCreates_ids (calls : List (JNote × String × Int)) (s : LocalStorage) :
    (lsReadAll (runCreates calls s)).fst.map JNote.id
      = (calls.map (fun c => effId c.1 c.2.1)).reverse
          ++ (lsReadAll s).fst.map JNote.id := by
  induction calls generalizing s with
  | nil => simp [runCreates]
  | cons c cs ih =>
      have hstep : runCreates (c :: cs) s
          = runCreates cs (createNote c.2.1 c.2.2 c.1 s).snd := rfl
      rw [hstep, ih]
      simp [createNote, lsWriteAll, lsReadAll, effId]

/-- C2 (counterexample) — two `create` calls that both pass `id: "a"`
(arbitrary input objects are allowed, and `createNote` uses
`note.id || <random>` with no deduplication) leave the collection with
two notes of the same id. -/
theorem claim_C2_counterexample :
    ((lsReadAll (runCreates
        [(⟨.str "a", .undef, .undef, .undef⟩, "t1", 0),
         (⟨.str "a", .undef, .undef, .undef⟩, "t2", 1)] none)).fst.map JNote.id)
      = [.str "a", .str "a"] ∧
    ¬ (([JSVal.str "a", JSVal.str "a"]).Pairwise
        fun a b => jsEq a b = false) := by
  constructor
  · rfl
  · intro hp
    have h1 := (List.pairwise_cons.mp hp).1 (.str "a") (by simp)
    simp [jsEq] at h1

/-- C2 (amended) — **Uniqueness.**  For a sequence of `create` calls under
local fallback starting from an empty store, the resulting ids are
pairwise distinct (w.r.t. `===`) *provided* the effective ids of the calls
(`note.id || 'n_' + token`, i.e. the supplied id or the random token) are
pairwise distinct; the code performs no deduplication, so a supplied
duplicate id or a random-token collision yields duplicate ids. -/
theorem claim_C2_unique_ids_amended (calls : List (JNote × String × Int))
    (h : (calls.map (fun c => effId c.1 c.2.1)).Pairwise
          (fun a b => jsEq a b = false)) :
    ((lsReadAll (runCreates calls none)).fst.map JNote.id).Pairwise
      (fun a b => jsEq a b = false) := by
  have hids := runCreates_ids calls none
  have h1 : ((calls.map (fun c => effId c.1 c.2.1))).Nodup :=
    h.imp (fun hab => (jsEq_false_iff _ _).mp hab)
  have h2 : ((calls.map (fun c => effId c.1 c.2.1)).reverse).Nodup :=
    List.nodup_reverse.mpr h1
  have h3 := h2.imp (fun hab => (jsEq_false_iff _ _).mpr hab)
  rw [hids]
  simpa [lsReadAll] using h3

/-- Witness for the amended C2: two creates with no supplied id and
distinct random tokens. -/
theorem claim_C2_unique_ids_amended_witness :
    ((lsReadAll (runCreates
        [(⟨.undef, .undef, .undef, .undef⟩, "t1", 0),
         (⟨.undef, .undef, .undef, .undef⟩, "t2", 1)] none)).fst.map
        JNote.id).Pairwise
      (fun a b => jsEq a b = false) :=
  claim_C2_unique_ids_amended
    [(⟨.undef, .undef, .undef, .undef⟩, "t1", 0),
     (⟨.undef, .undef, .undef, .undef⟩, "t2", 1)] (by decide)

/-- `v || ''` is a string whenever `v` is a string or falsy. -/
theorem isStringVal_jsOr (v : JSVal) (x : String)
    (h : isStringVal v = true ∨ truthy v = false) :
    isStringVal (jsOr v (.str x)) = true := by
  unfold jsOr
  by_cases hv : truthy v = true
  · rw [if_pos hv]
    rcases h with h | h
    · exact h
    · rw [hv] at h; cases h
  · rw [if_neg hv]; rfl

/-- C3 (counterexample) — `normalize` is not total and does not always
yield string fields: on `{updatedAt: "not-a-date"}` (a truthy string that
is not a parseable date) `new Date(...).toISOString()` throws a
`RangeError`; on `{updatedAt: 8640000000000001}` (a number past the
ECMA-262 time-value limit of 8.64e15, so `new Date(n)` is an Invalid
Date) it throws the same `RangeError`; and a truthy non-string `title`
(here the number 7) is passed through unchanged, so the output title is
not a string. -/
theorem claim_C3_counterexample :
    normalize 0 ⟨.undef, .undef, .undef, .str "not-a-date"⟩
      = .error "RangeError: Invalid time value" ∧
    normalize 0 ⟨.undef, .undef, .undef, .num 8640000000000001⟩
      = .error "RangeError: Invalid time value" ∧
    normalize 0 ⟨.undef, .num 7, .undef, .undef⟩
      = .ok ⟨.undef, .num 7, .str "", .time 0⟩ ∧
    isStringVal (.num 7) = false := by
  refine ⟨rfl, ?_, rfl, rfl⟩
  simp [normalize, truthy, jsToDate]

/-- C3 (amended) — **Normalization totality on well-formed dates.**  For
an input whose `title` and `content` are strings or falsy and whose
`updatedAt` is falsy or yields a valid date (a finite time value within
the ECMA-262 range of ±8.64e15 ms), `normalize` succeeds and its output
has a string `title`, a string `content`, and a valid ISO-8601 string
`updatedAt` — the current time when `updatedAt` is absent/falsy.  (It
throws a `RangeError` on a truthy `updatedAt` that does not yield a valid
date — a non-date string or an out-of-range numeric time value — and
passes truthy non-string `title`/`content` through unchanged.) -/
theorem claim_C3_normalize_amended (now : Int) (note : JNote)
    (ht : isStringVal note.title = true ∨ truthy note.title = false)
    (hc : isStringVal note.content = true ∨ truthy note.content = false)
    (hu : truthy note.updatedAt = false
          ∨ ∃ t, jsToDate note.updatedAt = some t) :
    ∃ r, normalize now note = .ok r ∧
      isStringVal r.title = true ∧ isStringVal r.content = true ∧
      isISO r.updatedAt = true ∧
      (truthy note.updatedAt = false → r.updatedAt = .time now) := by
  by_cases hut : truthy note.updatedAt = true
  · rcases hu with h | ⟨t, hparse⟩
    · rw [hut] at h; cases h
    · refine ⟨⟨note.id, jsOr note.title (.str ""), jsOr note.content (.str ""),
          .time t⟩, ?_, isStringVal_jsOr _ _ ht, isStringVal_jsOr _ _ hc,
          rfl, ?_⟩
      · simp [normalize, hut, hparse]
      · intro hfalse; rw [hut] at hfalse; cases hfalse
  · have hut2 : truthy note.updatedAt = false := by
      cases hq : truthy note.updatedAt
      · rfl
      · exact absurd hq hut
    refine ⟨⟨note.id, jsOr note.title (.str ""), jsOr note.content (.str ""),
        .time now⟩, ?_, isStringVal_jsOr _ _ ht, isStringVal_jsOr _ _ hc,
        rfl, fun _ => rfl⟩
    simp [normalize, hut2]

/-- Witness for the amended C3: a remote note with a parseable date and a
missing content field. -/
theorem claim_C3_normalize_amended_witness :
    ∃ r, normalize 9 ⟨.num 1, .str "T", .undef, .time 5⟩ = .ok r ∧
      isStringVal r.title = true ∧ isStringVal r.content = true ∧
      isISO r.updatedAt = true ∧
      (truthy (JNote.updatedAt ⟨.num 1, .str "T", .undef, .time 5⟩) = false →
        r.updatedAt = .time 9) :=
  claim_C3_normalize_amended 9 ⟨.num 1, .str "T", .undef, .time 5⟩
    (Or.inl rfl) (Or.inr rfl) (Or.inr ⟨5, rfl⟩)

/-- A wrapper call arriving within `wait` of the previous one cancels the
previous call's pending timer (`clearTimeout`), so the previous call
contributes no `fn` invocation. -/
theorem debounceFires_cancel {α : Type} (wait : Int) (c d : SaveCall α)
    (ds : List (SaveCall α)) (h : d.time ≤ c.time + wait) :
    debounceFires wait (c :: d :: ds) = debounceFires wait (d :: ds) := by
  simp [debounceFires, h]

/-- C5 — **Debounce coalescing.**  For a burst of `scheduleSave` calls in
which each call arrives within the quiescence window `wait` of the
previous one, the underlying `persist` function is invoked exactly once,
at `wait` after the last call of the burst, with the arguments of that
last call; and any call arriving within the window cancels the
not-yet-fired pending invocation of the previous call. -/
theorem claim_C5_debounce {α : Type} (wait : Int) (c : SaveCall α)
    (cs : List (SaveCall α))
    (h : List.Chain' (fun a b => b.time ≤ a.time + wait) (c :: cs)) :
    debounceFires wait (c :: cs)
      = [⟨((c :: cs).getLast (List.cons_ne_nil c cs)).time + wait,
          ((c :: cs).getLast (List.cons_ne_nil c cs)).args⟩] ∧
    (∀ (d : SaveCall α) (ds : List (SaveCall α)), d.time ≤ c.time + wait →
      debounceFires wait (c :: d :: ds) = debounceFires wait (d :: ds)) := by
  refine ⟨?_, fun d ds hd => debounceFires_cancel wait c d ds hd⟩
  induction cs generalizing c with
  | nil => simp [debounceFires]
  | cons c2 rest ih =>
      obtain ⟨h12, htail⟩ := List.chain'_cons.mp h
      rw [debounceFires_cancel wait c c2 rest h12, ih c2 htail]
      simp [List.getLast_cons]

/-- Witness for C5: the spec's burst `{title:"a"}, {title:"ab"},
{title:"abc"}` at times 0, 100, 200 with the 500 ms window fires a single
`persist` at time 700 with the last patch. -/
theorem claim_C5_debounce_witness :
    debounceFires 500
      [(⟨0, (JSVal.str "n1", (⟨some (.str "a"), none⟩ : Patch))⟩
          : SaveCall (JSVal × Patch)),
       ⟨100, (JSVal.str "n1", ⟨some (.str "ab"), none⟩)⟩,
       ⟨200, (JSVal.str "n1", ⟨some (.str "abc"), none⟩)⟩]
      = [⟨700, (JSVal.str "n1", ⟨some (.str "abc"), none⟩)⟩] := by
  have h := (claim_C5_debounce 500
    (⟨0, (JSVal.str "n1", (⟨some (.str "a"), none⟩ : Patch))⟩
        : SaveCall (JSVal × Patch))
    [⟨100, (JSVal.str "n1", ⟨some (.str "ab"), none⟩)⟩,
     ⟨200, (JSVal.str "n1", ⟨some (.str "abc"), none⟩)⟩]
    (by simp [List.chain'_cons])).1
  rw [h]
  rfl

end NotesApp
